import Mathlib

/- Shallow embedding of the orchestration core of a multi-platform media
downloader: the source files downloader.py (platform detection,
configuration validation, yt-dlp invocation construction, single-item
execution, batch coordination) and api.py (the HTTP layer's own platform
detector). Filesystem state is passed explicitly as a Boolean
file-existence observation on paths, process behaviour as a function from
argument lists to process results, and the nondeterministic completion
order of batch workers as an explicit completion sequence. -/

/-- Platform enum from downloader.py. -/
inductive Platform
  | YOUTUBE
  | INSTAGRAM
  | TIKTOK
  | TWITTER
  | FACEBOOK
  | DAILYMOTION
  | VIMEO
  | UNKNOWN
  deriving DecidableEq

/-- DownloadType enum from downloader.py. -/
inductive DownloadType
  | VIDEO
  | AUDIO
  | POST
  | STORY
  | PROFILE_PIC
  | HIGHLIGHTS
  deriving DecidableEq

/-- DownloadConfig dataclass from downloader.py, with the same defaults.
Paths are modelled as strings. -/
structure DownloadConfig where
  url : String
  platform : Platform
  download_type : Option DownloadType := none
  output_dir : String := "."
  quality : String := "best"
  format : Option String := none
  cookies_file : Option String := none
  metadata : Bool := true
  subtitles : Bool := false
  thumbnail : Bool := true
  sponsorblock : Bool := false
  concurrent_fragments : Nat := 1
  retries : Nat := 10
  rate_limit : Option String := none
  proxy : Option String := none
  deriving DecidableEq

/-- YT_DLP_PATH constant of class Downloader. -/
def YT_DLP_PATH : String := "yt-dlp"

/-- COOKIES_FILE constant of class Downloader (the YouTube-default cookie
file checked on disk). -/
def COOKIES_FILE : String := "insta.txt"

/-- Boolean test that `needle` occurs as a contiguous sublist of `hay`:
the character-level content of Python's `in` operator on strings. -/
def occursInChars (needle : List Char) : List Char → Bool
  | [] => needle.isEmpty
  | c :: rest => needle.isPrefixOf (c :: rest) || occursInChars needle rest

/-- Python's `needle in hay` substring test on strings. -/
def strOccurs (needle hay : String) : Bool :=
  occursInChars needle.data hay.data

/-- Characters urllib.parse allows inside a URL scheme. -/
def schemeCharOK (c : Char) : Bool :=
  c.isAlphanum || c == '+' || c == '-' || c == '.'

/-- Split a character list at its first colon, returning the parts before
and after it; models the first-colon search of urllib.parse.urlsplit. -/
def splitColon : List Char → Option (List Char × List Char)
  | [] => none
  | c :: rest =>
    if c == ':' then some ([], rest)
    else
      match splitColon rest with
      | some (a, b) => some (c :: a, b)
      | none => none

/-- Strip a leading well-formed `scheme:` when present; models the scheme
handling of urllib.parse.urlsplit (a collaborator outside this repository). -/
def removeScheme (cs : List Char) : List Char :=
  match splitColon cs with
  | none => cs
  | some (p, rest) =>
    match p with
    | [] => cs
    | c0 :: _ => if c0.isAlpha && p.all schemeCharOK then rest else cs

/-- Host (netloc) component of a URL: models urllib.parse.urlparse(url).netloc
for the URL shapes this program receives. After an optional scheme, a netloc
is present only behind a double slash and extends to the next slash,
question mark or hash. -/
def netloc (url : String) : String :=
  match removeScheme url.data with
  | '/' :: '/' :: tail =>
    String.mk (tail.takeWhile (fun c => (c != '/') && (c != '?') && (c != '#')))
  | _ => ""

/-- Python str.lower on the character data (the domain names compared here
are ASCII). -/
def lowerString (s : String) : String :=
  String.mk (s.data.map Char.toLower)

/-- SUPPORTED_PLATFORMS table of class Downloader, in declaration order
(Python dicts iterate in insertion order). -/
def SUPPORTED_PLATFORMS : List (String × Platform) :=
  [("youtube.com", Platform.YOUTUBE),
   ("youtu.be", Platform.YOUTUBE),
   ("instagram.com", Platform.INSTAGRAM),
   ("tiktok.com", Platform.TIKTOK),
   ("twitter.com", Platform.TWITTER),
   ("x.com", Platform.TWITTER),
   ("facebook.com", Platform.FACEBOOK),
   ("fb.watch", Platform.FACEBOOK),
   ("dailymotion.com", Platform.DAILYMOTION),
   ("dai.ly", Platform.DAILYMOTION),
   ("vimeo.com", Platform.VIMEO)]

/-- First-match lookup over the ordered platform table: the loop body shared
by Downloader.detect_platform and api.py's detect_platform. -/
def firstMatch (hay : String) : List (String × Platform) → Platform
  | [] => Platform.UNKNOWN
  | e :: rest => if strOccurs e.1 hay then e.2 else firstMatch hay rest

/-- Downloader.detect_platform from downloader.py: matches the table
substrings against the lowercased host component of the URL. -/
def detect_platform (url : String) : Platform :=
  firstMatch (lowerString (netloc url)) SUPPORTED_PLATFORMS

/-- detect_platform from api.py: matches the table substrings against the
raw URL string itself (no host extraction, no lowercasing). -/
def api_detect_platform (url : String) : Platform :=
  firstMatch url SUPPORTED_PLATFORMS

/-- The templates dict of Downloader.get_output_template, viewed through
dict.get. -/
def output_templates : Platform → Option String
  | Platform.YOUTUBE => some "%(title)s [%(id)s].%(ext)s"
  | Platform.INSTAGRAM => some "%(uploader)s - %(title)s [%(id)s].%(ext)s"
  | Platform.TIKTOK => some "%(uploader)s - %(title)s [%(id)s].%(ext)s"
  | Platform.TWITTER => some "%(uploader)s - %(title)s [%(id)s].%(ext)s"
  | Platform.FACEBOOK => some "%(title)s [%(id)s].%(ext)s"
  | Platform.DAILYMOTION => some "%(title)s [%(id)s].%(ext)s"
  | Platform.VIMEO => some "%(title)s [%(id)s].%(ext)s"
  | Platform.UNKNOWN => none

/-- os.path.join for the three-component joins used by
Downloader.get_output_template (relative second and third components). -/
def pathJoin3 (a b c : String) : String :=
  a ++ "/" ++ b ++ "/" ++ c

/-- Downloader.get_output_template from downloader.py. -/
def get_output_template (c : DownloadConfig) : String :=
  let base := (output_templates c.platform).getD "%(title)s [%(id)s].%(ext)s"
  if c.download_type = some DownloadType.AUDIO then
    pathJoin3 c.output_dir "Audio" base
  else
    pathJoin3 c.output_dir "Video" base

/-- The format_map dict of Downloader.get_default_format, viewed through
dict.get. -/
def default_format_map : Platform → Option String
  | Platform.YOUTUBE => some "bestvideo[ext=mp4]+bestaudio[ext=m4a]/best[ext=mp4]/best"
  | Platform.INSTAGRAM => some "best"
  | Platform.TIKTOK => some "best"
  | Platform.TWITTER => some "best"
  | Platform.FACEBOOK => some "best"
  | Platform.DAILYMOTION => some "best"
  | Platform.VIMEO => some "best"
  | Platform.UNKNOWN => none

/-- Downloader.get_default_format from downloader.py. -/
def get_default_format (c : DownloadConfig) : String :=
  if c.download_type = some DownloadType.AUDIO then "bestaudio/best"
  else (default_format_map c.platform).getD "best"

/-- The value placed after -f by Downloader.build_yt_dlp_command: the
explicit config format if set, else the default. -/
def format_arg (c : DownloadConfig) : String :=
  match c.format with
  | some f => f
  | none => get_default_format c

/-- Cookie-file resolution step of Downloader.build_yt_dlp_command (lines
141-147): an explicit existing cookies_file first, else the platform-default
cookie file, which applies only to YouTube. `fs` is the file-existence
observation the Python code makes through Path.exists. -/
def resolved_cookies_file (fs : String → Bool) (c : DownloadConfig) :
    Option String :=
  match c.cookies_file with
  | some f =>
    if fs f = true then some f
    else if c.platform = Platform.YOUTUBE ∧ fs COOKIES_FILE = true then
      some COOKIES_FILE
    else none
  | none =>
    if c.platform = Platform.YOUTUBE ∧ fs COOKIES_FILE = true then
      some COOKIES_FILE
    else none

/-- Cookie arguments emitted by Downloader.build_yt_dlp_command (lines
149-153): a resolved cookie file wins, else Instagram falls back to
browser-extracted cookies, else nothing. -/
def cookie_args (fs : String → Bool) (c : DownloadConfig) : List String :=
  match resolved_cookies_file fs c with
  | some f => ["--cookies", f]
  | none =>
    if c.platform = Platform.INSTAGRAM then ["--cookies-from-browser", "chrome"]
    else []

/-- Downloader.build_yt_dlp_command from downloader.py. -/
def build_yt_dlp_command (fs : String → Bool) (c : DownloadConfig) :
    List String :=
  [YT_DLP_PATH,
   "--no-playlist",
   "--ignore-errors",
   "--retries", toString c.retries,
   "--concurrent-fragments", toString c.concurrent_fragments,
   "--progress",
   "--newline",
   "--console-title",
   "-o", get_output_template c,
   "-f", format_arg c]
  ++ (match c.rate_limit with | some r => ["--limit-rate", r] | none => [])
  ++ (match c.proxy with | some p => ["--proxy", p] | none => [])
  ++ cookie_args fs c
  ++ [c.url]

/-- ConfigError taxonomy named by the specification for the ValueError and
FileNotFoundError conditions raised by Downloader.validate_config. -/
inductive ConfigError
  | EmptyURL
  | UnsupportedPlatform (url : String)
  | CookiesNotFound (f : String)
  deriving DecidableEq

/-- Downloader.validate_config from downloader.py, with its
directory-creation side effect made explicit: returns the error (if any)
together with the list of directories it created before stopping. -/
def validate_config (fs : String → Bool) (c : DownloadConfig) :
    Option ConfigError × List String :=
  if c.url = "" then (some ConfigError.EmptyURL, [])
  else if c.platform = Platform.UNKNOWN then
    (some (ConfigError.UnsupportedPlatform c.url), [])
  else
    let created := if fs c.output_dir then [] else [c.output_dir]
    match c.cookies_file with
    | some f =>
      if fs f then (none, created)
      else (some (ConfigError.CookiesNotFound f), created)
    | none => (none, created)

/-- Observable outcome of spawning the external engine: either process
creation failed (an exception out of subprocess.Popen) or the process ran
and exited with a status code. -/
inductive ProcResult
  | spawnFailure (msg : String)
  | exited (code : Int)
  deriving DecidableEq

/-- Downloader.download from downloader.py: builds the command, runs it
through `run`, and returns true exactly on exit status zero; every failure
mode (non-zero exit, spawn failure) is converted to false, never re-raised. -/
def download (run : List String → ProcResult) (fs : String → Bool)
    (c : DownloadConfig) : Bool :=
  match run (build_yt_dlp_command fs c) with
  | ProcResult.spawnFailure _ => false
  | ProcResult.exited code => code == 0

/-- Outcome of one batch unit (BatchDownloader._download_single through
future.result): either the boolean the unit returned, or the message of the
exception it raised, which download_batch converts to false. -/
def unitResult (oc : Except String Bool) : Bool :=
  match oc with
  | Except.ok b => b
  | Except.error _ => false

/-- Python dict assignment `results[url] = value`: updates the value in
place when the key is present (keeping the key's original position), else
appends the new pair. -/
def dictInsert (m : List (String × Bool)) (k : String) (v : Bool) :
    List (String × Bool) :=
  match m with
  | [] => [(k, v)]
  | (k0, v0) :: rest =>
    if k0 = k then (k0, v) :: rest else (k0, v0) :: dictInsert rest k v

/-- Python dict lookup. -/
def dictGet : List (String × Bool) → String → Option Bool
  | [], _ => none
  | (k, v) :: rest, u => if k = u then some v else dictGet rest u

/-- BatchDownloader.download_batch from downloader.py: one future is
submitted per unit; as futures complete — in the order given by
`completions`, some permutation of the submitted units — each outcome is
written into the results dict under its URL, with a raised exception
recorded as false. -/
def download_batch (completions : List (String × Except String Bool)) :
    List (String × Bool) :=
  completions.foldl (fun m p => dictInsert m p.1 (unitResult p.2)) []

/-- Failed-URL list of the summary in main (downloader.py lines 470-474):
the keys of the results dict, in dict iteration order, whose value is
false. -/
def failed_urls (m : List (String × Bool)) : List String :=
  (m.filter (fun p => !p.2)).map Prod.fst

/-- Outcome of the last completed unit for a given URL, if any: the value
the results dict holds for that URL once every write has happened. -/
def lastWriter (u : String) : List (String × Except String Bool) →
    Option (Except String Bool)
  | [] => none
  | p :: rest =>
    match lastWriter u rest with
    | some r => some r
    | none => if p.1 = u then some p.2 else none

/-- Helper: firstMatch expressed through List.find? on the same table. -/
theorem firstMatch_eq_find (hay : String) (l : List (String × Platform)) :
    firstMatch hay l =
      match l.find? (fun e => strOccurs e.1 hay) with
      | some e => e.2
      | none => Platform.UNKNOWN := by
  induction l with
  | nil => rfl
  | cons e rest ih =>
    cases hb : strOccurs e.1 hay <;>
      simp [firstMatch, List.find?_cons, hb, ih]

/-- C8: detect_platform returns the Platform mapped from the first entry of
the ordered domain-substring table whose substring occurs in the URL's
lowercased host component, and UNKNOWN when no entry's substring occurs in
the host; there is no third outcome and no failure mode. -/
theorem detect_platform_first_match (url : String) :
    detect_platform url =
      match SUPPORTED_PLATFORMS.find?
          (fun e => strOccurs e.1 (lowerString (netloc url))) with
      | some e => e.2
      | none => Platform.UNKNOWN :=
  firstMatch_eq_find (lowerString (netloc url)) SUPPORTED_PLATFORMS

/-- C7: Downloader.download returns true if and only if the spawned process
exits with status zero; a non-zero exit status and a failure to create the
process both yield false, and the operation is total (no exception
propagates). -/
theorem download_true_iff_exit_zero (run : List String → ProcResult)
    (fs : String → Bool) (c : DownloadConfig) :
    download run fs c = true ↔
      run (build_yt_dlp_command fs c) = ProcResult.exited 0 := by
  unfold download
  cases h : run (build_yt_dlp_command fs c) with
  | spawnFailure msg => simp
  | exited code => simp [beq_iff_eq]

/-- C7 (witness): a run exiting with status zero makes download return
true on a concrete config. -/
theorem download_true_iff_exit_zero_witness :
    download (fun _ => ProcResult.exited 0) (fun _ => false)
      { url := "https://vimeo.com/3", platform := Platform.VIMEO } = true :=
  (download_true_iff_exit_zero (fun _ => ProcResult.exited 0) (fun _ => false)
    { url := "https://vimeo.com/3", platform := Platform.VIMEO }).mpr rfl

/-- C6: for a config with platform UNKNOWN and non-empty URL, validation
fails with UnsupportedPlatform and creates no output directory: the
directory-creation side effect sits after the platform check. -/
theorem validate_unknown_platform_no_mkdir (fs : String → Bool)
    (c : DownloadConfig) (hurl : c.url ≠ "")
    (hplat : c.platform = Platform.UNKNOWN) :
    validate_config fs c = (some (ConfigError.UnsupportedPlatform c.url), []) := by
  simp [validate_config, hurl, hplat]

/-- C6 (witness): validation of a concrete UNKNOWN-platform config fails
with UnsupportedPlatform and an empty created-directory list. -/
theorem validate_unknown_platform_witness :
    validate_config (fun _ => false)
        { url := "https://example.org/v", platform := Platform.UNKNOWN } =
      (some (ConfigError.UnsupportedPlatform "https://example.org/v"), []) :=
  validate_unknown_platform_no_mkdir (fun _ => false)
    { url := "https://example.org/v", platform := Platform.UNKNOWN }
    (by decide) rfl

/-- Helper: any value the cookie step emits is an infix of the built
command, sitting between the fixed flags and the trailing URL. -/
theorem cookie_args_infix (fs : String → Bool) (c : DownloadConfig) :
    cookie_args fs c <:+: build_yt_dlp_command fs c := by
  refine ⟨[YT_DLP_PATH, "--no-playlist", "--ignore-errors",
    "--retries", toString c.retries,
    "--concurrent-fragments", toString c.concurrent_fragments,
    "--progress", "--newline", "--console-title",
    "-o", get_output_template c, "-f", format_arg c]
    ++ (match c.rate_limit with | some r => ["--limit-rate", r] | none => [])
    ++ (match c.proxy with | some p => ["--proxy", p] | none => []),
    [c.url], ?_⟩
  simp [build_yt_dlp_command, List.append_assoc]

/-- C4: with an explicit existing cookies_file the invocation carries
exactly that --cookies path (never the browser flag), for every platform
including Instagram; the full precedence is explicit existing cookies_file,
else the YouTube-only platform-default cookie file on disk, else the
Instagram-only browser-cookie flag, else no cookie flag at all. -/
theorem cookie_resolution_precedence (fs : String → Bool) (c : DownloadConfig) :
    (∀ f, c.cookies_file = some f → fs f = true →
      cookie_args fs c = ["--cookies", f] ∧
      ["--cookies", f] <:+: build_yt_dlp_command fs c) ∧
    ((∀ f, c.cookies_file = some f → fs f = false) →
      c.platform = Platform.YOUTUBE → fs COOKIES_FILE = true →
      cookie_args fs c = ["--cookies", COOKIES_FILE]) ∧
    ((∀ f, c.cookies_file = some f → fs f = false) →
      c.platform = Platform.INSTAGRAM →
      cookie_args fs c = ["--cookies-from-browser", "chrome"]) ∧
    ((∀ f, c.cookies_file = some f → fs f = false) →
      ¬(c.platform = Platform.YOUTUBE ∧ fs COOKIES_FILE = true) →
      c.platform ≠ Platform.INSTAGRAM →
      cookie_args fs c = []) := by
  refine ⟨?_, ?_, ?_, ?_⟩
  · intro f hf hfs
    have hca : cookie_args fs c = ["--cookies", f] := by
      simp [cookie_args, resolved_cookies_file, hf, hfs]
    exact ⟨hca, hca ▸ cookie_args_infix fs c⟩
  · intro hno hyt hck
    cases h : c.cookies_file with
    | some f => simp [cookie_args, resolved_cookies_file, h, hno f h, hyt, hck]
    | none => simp [cookie_args, resolved_cookies_file, h, hyt, hck]
  · intro hno hinsta
    have hny : ¬(c.platform = Platform.YOUTUBE ∧ fs COOKIES_FILE = true) := by
      rintro ⟨h1, -⟩
      rw [hinsta] at h1
      exact absurd h1 (by decide)
    cases h : c.cookies_file with
    | some f => simp [cookie_args, resolved_cookies_file, h, hno f h, hny, hinsta]
    | none => simp [cookie_args, resolved_cookies_file, h, hny, hinsta]
  · intro hno hny hni
    cases h : c.cookies_file with
    | some f => simp [cookie_args, resolved_cookies_file, h, hno f h, hny, hni]
    | none => simp [cookie_args, resolved_cookies_file, h, hny, hni]

/-- C4 (witness): an Instagram config with an explicit existing cookies
file gets exactly the --cookies flag with that path, and it appears in the
built invocation. -/
theorem cookie_resolution_precedence_witness :
    cookie_args (fun p => p == "ck.txt")
        { url := "https://instagram.com/p/xyz", platform := Platform.INSTAGRAM,
          cookies_file := some "ck.txt" } = ["--cookies", "ck.txt"] ∧
    ["--cookies", "ck.txt"] <:+: build_yt_dlp_command (fun p => p == "ck.txt")
        { url := "https://instagram.com/p/xyz", platform := Platform.INSTAGRAM,
          cookies_file := some "ck.txt" } :=
  (cookie_resolution_precedence (fun p => p == "ck.txt")
    { url := "https://instagram.com/p/xyz", platform := Platform.INSTAGRAM,
      cookies_file := some "ck.txt" }).1 "ck.txt" rfl (by decide)

/-- C5: the -f value is the explicit config format when set; otherwise
AUDIO selects bestaudio/best on every platform, YouTube (non-AUDIO) selects
its mp4/m4a fallback chain, and every other platform with type VIDEO or
unset selects best; the chosen value always follows -f in the built
invocation. -/
theorem format_selection (c : DownloadConfig) :
    (∀ f, c.format = some f → format_arg c = f) ∧
    (c.format = none → c.download_type = some DownloadType.AUDIO →
      format_arg c = "bestaudio/best") ∧
    (c.format = none → c.download_type ≠ some DownloadType.AUDIO →
      c.platform = Platform.YOUTUBE →
      format_arg c = "bestvideo[ext=mp4]+bestaudio[ext=m4a]/best[ext=mp4]/best") ∧
    (c.format = none →
      (c.download_type = some DownloadType.VIDEO ∨ c.download_type = none) →
      c.platform ≠ Platform.YOUTUBE → format_arg c = "best") ∧
    (∀ fs, ["-f", format_arg c] <:+: build_yt_dlp_command fs c) := by
  refine ⟨?_, ?_, ?_, ?_, ?_⟩
  · intro f hf
    simp [format_arg, hf]
  · intro hf ha
    simp [format_arg, hf, get_default_format, ha]
  · intro hf ha hy
    simp [format_arg, hf, get_default_format, ha, hy, default_format_map]
  · intro hf hdt hp
    have ha : ¬ c.download_type = some DownloadType.AUDIO := by
      rcases hdt with h | h <;> simp [h]
    simp only [format_arg, hf, get_default_format, if_neg ha]
    cases hpl : c.platform with
    | YOUTUBE => exact absurd hpl hp
    | _ => rfl
  · intro fs
    refine ⟨[YT_DLP_PATH, "--no-playlist", "--ignore-errors",
      "--retries", toString c.retries,
      "--concurrent-fragments", toString c.concurrent_fragments,
      "--progress", "--newline", "--console-title",
      "-o", get_output_template c],
      (match c.rate_limit with | some r => ["--limit-rate", r] | none => [])
      ++ (match c.proxy with | some p => ["--proxy", p] | none => [])
      ++ cookie_args fs c ++ [c.url], ?_⟩
    simp [build_yt_dlp_command, List.append_assoc]

/-- C5 (witness): a YouTube config with no explicit format and no type
resolves to the YouTube fallback chain. -/
theorem format_selection_witness :
    format_arg { url := "https://youtube.com/watch?v=abc",
                 platform := Platform.YOUTUBE } =
      "bestvideo[ext=mp4]+bestaudio[ext=m4a]/best[ext=mp4]/best" :=
  (format_selection { url := "https://youtube.com/watch?v=abc",
                      platform := Platform.YOUTUBE }).2.2.1 rfl (by decide) rfl

/-- C2 (counterexample): identical configs do not always yield identical
argument lists — the builder reads the filesystem. For a YouTube config
with no explicit cookies file, the presence of the platform-default cookie
file insta.txt on disk changes the built invocation. -/
theorem build_varies_with_disk_counterexample :
    build_yt_dlp_command (fun _ => false)
        { url := "https://youtube.com/watch?v=abc",
          platform := Platform.YOUTUBE } ≠
      build_yt_dlp_command (fun p => p == "insta.txt")
        { url := "https://youtube.com/watch?v=abc",
          platform := Platform.YOUTUBE } := by
  decide

/-- C2 (amended): build_yt_dlp_command is a deterministic function of the
config together with the file-existence observations it makes — the
existence of the configured cookies_file and of the platform-default cookie
file. Two runs on the same config whose filesystems agree on those two
observations yield byte-identical argument lists. -/
theorem build_deterministic_given_cookie_observations
    (fs1 fs2 : String → Bool) (c : DownloadConfig)
    (hcf : ∀ f, c.cookies_file = some f → fs1 f = fs2 f)
    (hdef : fs1 COOKIES_FILE = fs2 COOKIES_FILE) :
    build_yt_dlp_command fs1 c = build_yt_dlp_command fs2 c := by
  unfold build_yt_dlp_command cookie_args resolved_cookies_file
  cases h : c.cookies_file with
  | some f =>
    dsimp only
    rw [hcf f h, hdef]
  | none =>
    dsimp only
    rw [hdef]

/-- C2 (amended, witness): two filesystems agreeing on the relevant cookie
observations produce the same invocation for a concrete config. -/
theorem build_deterministic_witness :
    build_yt_dlp_command (fun _ => false)
        { url := "https://vimeo.com/1", platform := Platform.VIMEO } =
      build_yt_dlp_command (fun p => p == "other.txt")
        { url := "https://vimeo.com/1", platform := Platform.VIMEO } :=
  build_deterministic_given_cookie_observations (fun _ => false)
    (fun p => p == "other.txt")
    { url := "https://vimeo.com/1", platform := Platform.VIMEO }
    (fun f h => nomatch h) (by decide)

/-- C10: the built invocation is independent of the accepted-but-passive
config fields quality, metadata, subtitles, thumbnail and sponsorblock:
two configs equal on every other field yield identical argument lists under
the same filesystem. -/
theorem build_ignores_passive_fields (fs : String → Bool)
    (c1 c2 : DownloadConfig)
    (hurl : c1.url = c2.url)
    (hplat : c1.platform = c2.platform)
    (hdt : c1.download_type = c2.download_type)
    (hdir : c1.output_dir = c2.output_dir)
    (hfmt : c1.format = c2.format)
    (hcf : c1.cookies_file = c2.cookies_file)
    (hfrag : c1.concurrent_fragments = c2.concurrent_fragments)
    (hret : c1.retries = c2.retries)
    (hrate : c1.rate_limit = c2.rate_limit)
    (hproxy : c1.proxy = c2.proxy) :
    build_yt_dlp_command fs c1 = build_yt_dlp_command fs c2 := by
  unfold build_yt_dlp_command get_output_template format_arg
    get_default_format cookie_args resolved_cookies_file
  rw [hurl, hplat, hdt, hdir, hfmt, hcf, hfrag, hret, hrate, hproxy]

/-- C10 (witness): flipping quality, metadata, subtitles, thumbnail and
sponsorblock on a concrete config leaves the invocation unchanged. -/
theorem build_ignores_passive_fields_witness :
    build_yt_dlp_command (fun _ => false)
        { url := "https://vimeo.com/2", platform := Platform.VIMEO,
          quality := "worst", metadata := false, subtitles := true,
          thumbnail := false, sponsorblock := true } =
      build_yt_dlp_command (fun _ => false)
        { url := "https://vimeo.com/2", platform := Platform.VIMEO } :=
  build_ignores_passive_fields (fun _ => false)
    { url := "https://vimeo.com/2", platform := Platform.VIMEO,
      quality := "worst", metadata := false, subtitles := true,
      thumbnail := false, sponsorblock := true }
    { url := "https://vimeo.com/2", platform := Platform.VIMEO }
    rfl rfl rfl rfl rfl rfl rfl rfl rfl rfl

/-- Helper: lookup after a dict insert sees the new value exactly at the
inserted key. -/
theorem dictGet_dictInsert (m : List (String × Bool)) (k : String) (v : Bool)
    (u : String) :
    dictGet (dictInsert m k v) u = if k = u then some v else dictGet m u := by
  induction m with
  | nil => simp [dictInsert, dictGet]
  | cons p rest ih =>
    obtain ⟨k0, v0⟩ := p
    by_cases hk0 : k0 = k
    · subst hk0
      by_cases hku : k0 = u <;> simp [dictInsert, dictGet, hku]
    · have hstep : dictInsert ((k0, v0) :: rest) k v =
          (k0, v0) :: dictInsert rest k v := by
        simp [dictInsert, hk0]
      rw [hstep]
      by_cases hk0u : k0 = u
      · have hku : ¬ k = u := fun he => hk0 (hk0u.trans he.symm)
        simp [dictGet, hk0u, hku]
      · simp [dictGet, hk0u, ih]

/-- Helper: a dict insert adds the inserted key to the key set and nothing
else. -/
theorem mem_keys_dictInsert (m : List (String × Bool)) (k : String) (v : Bool)
    (u : String) :
    u ∈ (dictInsert m k v).map Prod.fst ↔ u = k ∨ u ∈ m.map Prod.fst := by
  induction m with
  | nil => simp [dictInsert]
  | cons p rest ih =>
    obtain ⟨k0, v0⟩ := p
    by_cases hk0 : k0 = k
    · subst hk0
      have hstep : dictInsert ((k0, v0) :: rest) k0 v = (k0, v) :: rest := by
        simp [dictInsert]
      rw [hstep]
      simp only [List.map_cons, List.mem_cons]
      tauto
    · have hstep : dictInsert ((k0, v0) :: rest) k v =
          (k0, v0) :: dictInsert rest k v := by
        simp [dictInsert, hk0]
      rw [hstep]
      simp only [List.map_cons, List.mem_cons, ih]
      tauto

/-- Helper: dict inserts keep the keys duplicate-free. -/
theorem nodup_keys_dictInsert (m : List (String × Bool)) (k : String) (v : Bool)
    (h : (m.map Prod.fst).Nodup) :
    ((dictInsert m k v).map Prod.fst).Nodup := by
  induction m with
  | nil => simp [dictInsert]
  | cons p rest ih =>
    obtain ⟨k0, v0⟩ := p
    simp only [List.map_cons, List.nodup_cons] at h
    by_cases hk0 : k0 = k
    · subst hk0
      have hstep : dictInsert ((k0, v0) :: rest) k0 v = (k0, v) :: rest := by
        simp [dictInsert]
      rw [hstep]
      simp only [List.map_cons, List.nodup_cons]
      exact h
    · have hstep : dictInsert ((k0, v0) :: rest) k v =
          (k0, v0) :: dictInsert rest k v := by
        simp [dictInsert, hk0]
      rw [hstep]
      simp only [List.map_cons, List.nodup_cons]
      refine ⟨?_, ih h.2⟩
      rw [mem_keys_dictInsert]
      push_neg
      exact ⟨hk0, h.1⟩

/-- Helper: after folding a completion sequence into the results dict, the
value at a URL is the recorded outcome of the last completed unit for that
URL, and untouched otherwise. -/
theorem dictGet_batch_foldl (l : List (String × Except String Bool))
    (m : List (String × Bool)) (u : String) :
    dictGet (l.foldl (fun m p => dictInsert m p.1 (unitResult p.2)) m) u =
      match lastWriter u l with
      | some oc => some (unitResult oc)
      | none => dictGet m u := by
  induction l generalizing m with
  | nil => simp [lastWriter]
  | cons p rest ih =>
    simp only [List.foldl_cons, lastWriter, ih]
    cases h : lastWriter u rest with
    | some r => simp
    | none =>
      by_cases hpu : p.1 = u <;> simp [dictGet_dictInsert, hpu]

/-- Helper: folding a completion sequence into a dict with duplicate-free
keys keeps the keys duplicate-free. -/
theorem nodup_keys_batch_foldl (l : List (String × Except String Bool))
    (m : List (String × Bool)) (h : (m.map Prod.fst).Nodup) :
    ((l.foldl (fun m p => dictInsert m p.1 (unitResult p.2)) m).map
      Prod.fst).Nodup := by
  induction l generalizing m with
  | nil => exact h
  | cons p rest ih => exact ih _ (nodup_keys_dictInsert _ _ _ h)

/-- Helper: no unit for a URL completed exactly when lastWriter finds
nothing. -/
theorem lastWriter_eq_none_iff (u : String)
    (l : List (String × Except String Bool)) :
    lastWriter u l = none ↔ ∀ p ∈ l, p.1 ≠ u := by
  induction l with
  | nil => simp [lastWriter]
  | cons p rest ih =>
    constructor
    · intro h
      have hrest : lastWriter u rest = none := by
        cases h2 : lastWriter u rest with
        | none => rfl
        | some r =>
          simp only [lastWriter, h2] at h
          exact absurd h (by simp)
      have hpu : ¬ p.1 = u := by
        simp only [lastWriter, hrest] at h
        by_cases hc : p.1 = u
        · rw [if_pos hc] at h
          exact absurd h (by simp)
        · exact hc
      intro q hq
      rcases List.mem_cons.mp hq with rfl | hq2
      · exact hpu
      · exact ih.mp hrest q hq2
    · intro hall
      have hrest : lastWriter u rest = none :=
        ih.mpr fun q hq => hall q (List.mem_cons_of_mem _ hq)
      simp only [lastWriter, hrest]
      rw [if_neg (hall p (List.mem_cons_self _ _))]

/-- Helper: the outcome lastWriter reports belongs to a unit of that URL in
the completion sequence. -/
theorem lastWriter_mem (u : String) (l : List (String × Except String Bool))
    (oc : Except String Bool) (h : lastWriter u l = some oc) : (u, oc) ∈ l := by
  induction l with
  | nil => simp [lastWriter] at h
  | cons p rest ih =>
    obtain ⟨p1, p2⟩ := p
    simp only [lastWriter] at h
    cases h2 : lastWriter u rest with
    | some r =>
      rw [h2] at h
      simp only [Option.some.injEq] at h
      subst h
      exact List.mem_cons_of_mem _ (ih h2)
    | none =>
      rw [h2] at h
      by_cases hpu : p1 = u
      · rw [if_pos hpu] at h
        have hoc : p2 = oc := by injection h
        subst hoc
        subst hpu
        exact List.mem_cons_self _ _
      · rw [if_neg hpu] at h
        exact absurd h (by simp)

/-- Helper: a key sits in a dict exactly when lookup finds a value. -/
theorem dictGet_eq_some_iff_mem_keys (m : List (String × Bool)) (u : String) :
    (∃ b, dictGet m u = some b) ↔ u ∈ m.map Prod.fst := by
  induction m with
  | nil => simp [dictGet]
  | cons p rest ih =>
    obtain ⟨k, v⟩ := p
    by_cases hk : k = u
    · subst hk
      simp [dictGet]
    · have hku : ¬ u = k := fun he => hk he.symm
      simp [dictGet, hk, hku, ih]

/-- C3: for every submitted unit list (duplicates included) and every
completion order of the units, download_batch yields a mapping with exactly
one entry per distinct input URL; an exception inside one unit is caught at
the unit boundary and recorded as false under that URL's key, and no
exception prevents the other units from being recorded or the batch from
returning a complete mapping. -/
theorem batch_complete_mapping_and_fault_isolation
    (units completions : List (String × Except String Bool))
    (hperm : List.Perm completions units) :
    ((download_batch completions).map Prod.fst).Nodup ∧
    (∀ u, u ∈ (download_batch completions).map Prod.fst ↔
      u ∈ units.map Prod.fst) ∧
    (∀ u, u ∈ units.map Prod.fst →
      ∃ b, dictGet (download_batch completions) u = some b) ∧
    (∀ u, u ∈ units.map Prod.fst →
      (∀ p ∈ units, p.1 = u → ∃ e, p.2 = Except.error e) →
      dictGet (download_batch completions) u = some false) := by
  have hget : ∀ u, dictGet (download_batch completions) u =
      match lastWriter u completions with
      | some oc => some (unitResult oc)
      | none => none := by
    intro u
    rw [download_batch, dictGet_batch_foldl]
    cases lastWriter u completions <;> simp [dictGet]
  have hex : ∀ u, (∃ b, dictGet (download_batch completions) u = some b) ↔
      ∃ p ∈ completions, p.1 = u := by
    intro u
    rw [hget u]
    cases h : lastWriter u completions with
    | some oc =>
      simp only
      constructor
      · intro _
        exact ⟨(u, oc), lastWriter_mem u completions oc h, rfl⟩
      · intro _
        exact ⟨unitResult oc, rfl⟩
    | none =>
      simp only
      constructor
      · rintro ⟨b, hb⟩
        exact absurd hb (by simp)
      · rintro ⟨p, hp, hpu⟩
        exact absurd hpu ((lastWriter_eq_none_iff u completions).mp h p hp)
  have hmemkeys : ∀ u, u ∈ (download_batch completions).map Prod.fst ↔
      u ∈ units.map Prod.fst := by
    intro u
    rw [← dictGet_eq_some_iff_mem_keys, hex u]
    constructor
    · rintro ⟨p, hp, hpu⟩
      exact List.mem_map.mpr ⟨p, hperm.mem_iff.mp hp, hpu⟩
    · intro hu
      rcases List.mem_map.mp hu with ⟨p, hp, hpu⟩
      exact ⟨p, hperm.mem_iff.mpr hp, hpu⟩
  refine ⟨?_, hmemkeys, ?_, ?_⟩
  · exact nodup_keys_batch_foldl completions [] (by simp)
  · intro u hu
    exact (hex u).mpr (by
      rcases List.mem_map.mp hu with ⟨p, hp, hpu⟩
      exact ⟨p, hperm.mem_iff.mpr hp, hpu⟩)
  · intro u hu hfault
    rcases List.mem_map.mp hu with ⟨p, hp, hpu⟩
    have hlw : lastWriter u completions ≠ none := by
      intro habs
      exact absurd hpu
        ((lastWriter_eq_none_iff u completions).mp habs p
          (hperm.mem_iff.mpr hp))
    cases h : lastWriter u completions with
    | none => exact absurd h hlw
    | some oc =>
      have hmem : (u, oc) ∈ units :=
        hperm.mem_iff.mp (lastWriter_mem u completions oc h)
      rcases hfault (u, oc) hmem rfl with ⟨e, he⟩
      have he2 : oc = Except.error e := he
      rw [hget u, h, he2]
      rfl

/-- C3 (witness): a two-unit batch whose first unit raises completes with a
full mapping recording false for the raising unit's URL. -/
theorem batch_complete_mapping_witness :
    dictGet (download_batch
      ([("a", Except.error "boom"), ("b", Except.ok true)] :
        List (String × Except String Bool))) "a" = some false := by
  have h := (batch_complete_mapping_and_fault_isolation
    ([("a", Except.error "boom"), ("b", Except.ok true)] :
      List (String × Except String Bool))
    ([("a", Except.error "boom"), ("b", Except.ok true)] :
      List (String × Except String Bool))
    (List.Perm.refl _)).2.2.2
  apply h "a" (by decide)
  intro p hp hpu
  rcases List.mem_cons.mp hp with rfl | hp2
  · exact ⟨"boom", rfl⟩
  · rcases List.mem_cons.mp hp2 with rfl | hp3
    · exact absurd hpu (by decide)
    · exact absurd hp3 (by simp)

/-- Helper: inserting a fresh key appends the pair at the end. -/
theorem dictInsert_of_not_mem (m : List (String × Bool)) (k : String)
    (v : Bool) (h : k ∉ m.map Prod.fst) :
    dictInsert m k v = m ++ [(k, v)] := by
  induction m with
  | nil => simp [dictInsert]
  | cons p rest ih =>
    obtain ⟨k0, v0⟩ := p
    simp only [List.map_cons, List.mem_cons] at h
    push_neg at h
    have hk0 : ¬ k0 = k := fun he => h.1 he.symm
    have hstep : dictInsert ((k0, v0) :: rest) k v =
        (k0, v0) :: dictInsert rest k v := by
      simp [dictInsert, hk0]
    rw [hstep, ih h.2]
    simp

/-- Helper: when unit URLs are duplicate-free, the fold writes each unit
exactly once, in completion order, after the initial dict. -/
theorem batch_foldl_of_nodup (l : List (String × Except String Bool))
    (m : List (String × Bool))
    (hfresh : ∀ p ∈ l, p.1 ∉ m.map Prod.fst)
    (hl : (l.map Prod.fst).Nodup) :
    l.foldl (fun m p => dictInsert m p.1 (unitResult p.2)) m =
      m ++ l.map (fun p => (p.1, unitResult p.2)) := by
  induction l generalizing m with
  | nil => simp
  | cons p rest ih =>
    simp only [List.map_cons, List.nodup_cons] at hl
    simp only [List.foldl_cons]
    rw [dictInsert_of_not_mem m p.1 (unitResult p.2)
      (hfresh p (List.mem_cons_self _ _))]
    rw [ih (m ++ [(p.1, unitResult p.2)]) ?_ hl.2]
    · simp
    · intro q hq
      simp only [List.map_append, List.mem_append, List.map_cons]
      push_neg
      refine ⟨hfresh q (List.mem_cons_of_mem _ hq), ?_⟩
      simp only [List.map_cons, List.map_nil, List.mem_singleton]
      intro he
      exact hl.1 (he ▸ List.mem_map.mpr ⟨q, hq, rfl⟩)

/-- Helper: the failed-URL sweep over a plainly written results list picks
exactly the false entries in order. -/
theorem failed_urls_map (l : List (String × Except String Bool)) :
    failed_urls (l.map (fun p => (p.1, unitResult p.2))) =
      (l.filter (fun p => !unitResult p.2)).map Prod.fst := by
  induction l with
  | nil => rfl
  | cons p rest ih =>
    simp only [List.map_cons, failed_urls, List.filter_cons] at *
    cases h : unitResult p.2 <;> simp [h, ih]

/-- C1 (counterexample): the reported failed-URL sequence is the results
dict's iteration order — the order units completed — not the original input
order. With input units a then b, both failing, and b completing first, the
summary lists b before a, not the input-order subsequence a then b. -/
theorem failed_urls_not_input_order_counterexample :
    List.Perm
      ([("b", Except.ok false), ("a", Except.ok false)] :
        List (String × Except String Bool))
      ([("a", Except.ok false), ("b", Except.ok false)] :
        List (String × Except String Bool)) ∧
    failed_urls (download_batch
      ([("b", Except.ok false), ("a", Except.ok false)] :
        List (String × Except String Bool))) ≠
      (List.filter (fun p => !unitResult p.2)
        ([("a", Except.ok false), ("b", Except.ok false)] :
          List (String × Except String Bool))).map Prod.fst := by
  constructor
  · exact List.Perm.swap _ _ _
  · decide

/-- C1 (amended): the summary lists the failed URLs in the results dict's
iteration order, which is the order in which units first completed; when
units complete in submission order (as with a single worker) and the input
URLs are duplicate-free, that order coincides with the original input
order: the failed list is then exactly the input-order subsequence of
failing URLs. -/
theorem failed_urls_input_order_when_sequential
    (units : List (String × Except String Bool))
    (hnodup : (units.map Prod.fst).Nodup) :
    failed_urls (download_batch units) =
      (units.filter (fun p => !unitResult p.2)).map Prod.fst := by
  rw [download_batch, batch_foldl_of_nodup units [] (by simp) hnodup]
  simpa using failed_urls_map units

/-- C1 (amended, witness): a duplicate-free batch completing in submission
order reports exactly the failing URL. -/
theorem failed_urls_input_order_witness :
    failed_urls (download_batch
      ([("a", Except.ok true), ("b", Except.ok false)] :
        List (String × Except String Bool))) = ["b"] := by
  rw [failed_urls_input_order_when_sequential
    ([("a", Except.ok true), ("b", Except.ok false)] :
      List (String × Except String Bool)) (by decide)]
  decide

/-- Helper: first-match lookup only depends on the per-entry occurrence
bits. -/
theorem firstMatch_congr (hay1 hay2 : String) (l : List (String × Platform))
    (h : ∀ e ∈ l, strOccurs e.1 hay1 = strOccurs e.1 hay2) :
    firstMatch hay1 l = firstMatch hay2 l := by
  induction l with
  | nil => rfl
  | cons e rest ih =>
    simp only [firstMatch]
    rw [h e (List.mem_cons_self _ _)]
    cases hb : strOccurs e.1 hay2 <;>
      simp [hb, ih fun q hq => h q (List.mem_cons_of_mem _ hq)]

/-- C9 (counterexample): the HTTP layer's detector tests substrings against
the whole URL string while the core detector tests the lowercased host
only; on a URL whose query carries a registered domain they disagree. -/
theorem detectors_disagree_counterexample :
    api_detect_platform "https://example.com/watch?ref=youtube.com" =
      Platform.YOUTUBE ∧
    detect_platform "https://example.com/watch?ref=youtube.com" =
      Platform.UNKNOWN ∧
    api_detect_platform "https://example.com/watch?ref=youtube.com" ≠
      detect_platform "https://example.com/watch?ref=youtube.com" := by
  refine ⟨by decide, by decide, by decide⟩

/-- C9 (amended): the two detectors can disagree in general; they are
guaranteed to agree on every URL for which each table substring occurs in
the raw URL string if and only if it occurs in the lowercased host
component — in particular on ordinary lowercase URLs whose registered
domain sits in the host and nowhere else. The condition is sufficient, not
necessary: the detectors may also coincide when different table entries
happen to map to the same platform. -/
theorem detectors_agree_when_occurrences_agree (url : String)
    (h : ∀ e ∈ SUPPORTED_PLATFORMS,
      strOccurs e.1 url = strOccurs e.1 (lowerString (netloc url))) :
    api_detect_platform url = detect_platform url :=
  firstMatch_congr url (lowerString (netloc url)) SUPPORTED_PLATFORMS h

/-- C9 (amended, witness): on a plain lowercase YouTube URL the two
detectors agree. -/
theorem detectors_agree_witness :
    api_detect_platform "https://youtube.com/watch?v=abc" =
      detect_platform "https://youtube.com/watch?v=abc" :=
  detectors_agree_when_occurrences_agree "https://youtube.com/watch?v=abc"
    (by decide)
